import Mathlib

/-!
Verification of the double-entry journal balance engine
(`src/utils/journalBalance.ts`).

The TypeScript module works over `decimal.js` exact decimals; we embed
amounts and balances as rationals (`Rat`), whose addition, subtraction and
negation coincide with exact-decimal arithmetic on all decimal inputs.
The JavaScript `Record<string, Decimal>` is embedded as an insertion-ordered
association list with unique keys: property lookup is first-match lookup,
property assignment replaces the first match in place or appends a fresh
key at the end, exactly as a JS object behaves.
-/

namespace JournalBalance

/-- Embeds the `JournalEntry` interface: `debit_code` stands for
`entry.debit_account.code`, `credit_code` for `entry.credit_account.code`,
and `amount` for the entry amount as an exact decimal. -/
structure JournalEntry where
  debit_code : String
  credit_code : String
  amount : Rat
  deriving DecidableEq

/-- The `Record<string, Decimal>` of balances: insertion-ordered key/value
pairs. -/
abbrev Balances := List (String × Rat)

/-- JS property read `balances[code]`: first matching key, defaulting to 0
(the code only reads keys it has initialised). -/
def getBal : Balances → String → Rat
  | [], _ => 0
  | p :: rest, k => if p.1 = k then p.2 else getBal rest k

/-- JS property test `!balances[code]` (a `Decimal` object is always
truthy, so the guard in the source tests key presence). -/
def hasAccount : Balances → String → Bool
  | [], _ => false
  | p :: rest, k => p.1 == k || hasAccount rest k

/-- JS property write `balances[code] = v`: replace in place if the key
exists, otherwise append at the end. -/
def setBal : Balances → String → Rat → Balances
  | [], k, v => [(k, v)]
  | p :: rest, k, v => if p.1 = k then (k, v) :: rest else p :: setBal rest k v

/-- The lazy zero-initialisation
`if (!balances[code]) balances[code] = new Decimal(0)`. -/
def initKey (b : Balances) (k : String) : Balances :=
  if hasAccount b k then b else setBal b k 0

/-- One iteration of the `entries.forEach` loop in `getAccountBalances`:
initialise both accounts, add the amount to the debit account, subtract it
from the credit account. -/
def processEntry (b : Balances) (e : JournalEntry) : Balances :=
  let b2 := initKey (initKey b e.debit_code) e.credit_code
  let b3 := setBal b2 e.debit_code (getBal b2 e.debit_code + e.amount)
  setBal b3 e.credit_code (getBal b3 e.credit_code - e.amount)

/-- Embeds `getAccountBalances`: fold the mutable record update over the
entry list starting from the empty record. -/
def getAccountBalances (entries : List JournalEntry) : Balances :=
  entries.foldl processEntry []

/-- The `totalDebit` reduce in `isJournalBalanced`. -/
def totalDebit (entries : List JournalEntry) : Rat :=
  entries.foldl (fun s e => s + e.amount) 0

/-- The `totalCredit` reduce in `isJournalBalanced` (the source computes
the very same sum of amounts a second time). -/
def totalCredit (entries : List JournalEntry) : Rat :=
  entries.foldl (fun s e => s + e.amount) 0

/-- Embeds `isJournalBalanced`: `totalDebit.equals(totalCredit)` is exact
value equality of the two decimals. -/
def isJournalBalanced (entries : List JournalEntry) : Bool :=
  decide (totalDebit entries = totalCredit entries)

/-- The five account classifications of `verifyAccountingEquation`. -/
inductive AccountType where
  | asset | liability | equity | income | expense
  deriving DecidableEq

/-- The `accountTypes` record argument: a JS object mapping account codes
to classifications. -/
abbrev AccountTypes := List (String × AccountType)

/-- JS property read `accountTypes[accountCode]`, `undefined` becoming
`none`. -/
def lookupType (types : AccountTypes) (code : String) : Option AccountType :=
  (types.find? (fun p => p.1 == code)).map Prod.snd

/-- The five running totals of `verifyAccountingEquation`. -/
structure Totals where
  assets : Rat
  liabilities : Rat
  equity : Rat
  income : Rat
  expenses : Rat
  deriving DecidableEq

/-- One iteration of the `Object.entries(balances).forEach` switch:
asset and expense accumulate the balance as-is, liability, equity and
income accumulate its negation, an unclassified account changes nothing. -/
def equationStep (types : AccountTypes) (t : Totals) (p : String × Rat) : Totals :=
  match lookupType types p.1 with
  | some AccountType.asset => { t with assets := t.assets + p.2 }
  | some AccountType.liability => { t with liabilities := t.liabilities + (-p.2) }
  | some AccountType.equity => { t with equity := t.equity + (-p.2) }
  | some AccountType.income => { t with income := t.income + (-p.2) }
  | some AccountType.expense => { t with expenses := t.expenses + p.2 }
  | none => t

/-- The tail of `verifyAccountingEquation` once the balances are in hand:
accumulate the five totals over the record, then compare
`assets` with `liabilities + equity + (income - expenses)` exactly. -/
def equationCheck (bal : Balances) (types : AccountTypes) : Bool :=
  let t := bal.foldl (equationStep types) ⟨0, 0, 0, 0, 0⟩
  decide (t.assets = t.liabilities + t.equity + (t.income - t.expenses))

/-- Embeds `verifyAccountingEquation`. -/
def verifyAccountingEquation (entries : List JournalEntry) (types : AccountTypes) : Bool :=
  equationCheck (getAccountBalances entries) types

/-- Net effect of one entry on the account `c`, as the claims state it:
its amount if `c` is the debit account, minus its amount if `c` is the
credit account. -/
def entryDelta (c : String) (e : JournalEntry) : Rat :=
  (if e.debit_code = c then e.amount else 0) - (if e.credit_code = c then e.amount else 0)

/-- Sum of the amounts of the entries debiting account `c`. -/
def debitSum (c : String) (entries : List JournalEntry) : Rat :=
  (entries.map (fun e => if e.debit_code = c then e.amount else 0)).sum

/-- Sum of the amounts of the entries crediting account `c`. -/
def creditSum (c : String) (entries : List JournalEntry) : Rat :=
  (entries.map (fun e => if e.credit_code = c then e.amount else 0)).sum

/-- Whether the entry references account `c` on either side. -/
def touches (c : String) (e : JournalEntry) : Bool :=
  e.debit_code == c || e.credit_code == c

/-- Sum of all balances stored in the record. -/
def sumVals (b : Balances) : Rat :=
  (b.map Prod.snd).sum

/-- Total contributed to the `assets` accumulator: raw balances of
accounts classified `asset`, added as-is. -/
def assetsTotal (types : AccountTypes) (bal : Balances) : Rat :=
  (bal.map (fun p => if lookupType types p.1 = some AccountType.asset then p.2 else 0)).sum

/-- Total contributed to the `liabilities` accumulator: negated raw
balances of accounts classified `liability`. -/
def liabilitiesTotal (types : AccountTypes) (bal : Balances) : Rat :=
  (bal.map (fun p => if lookupType types p.1 = some AccountType.liability then -p.2 else 0)).sum

/-- Total contributed to the `equity` accumulator: negated raw balances of
accounts classified `equity`. -/
def equityTotal (types : AccountTypes) (bal : Balances) : Rat :=
  (bal.map (fun p => if lookupType types p.1 = some AccountType.equity then -p.2 else 0)).sum

/-- Total contributed to the `income` accumulator: negated raw balances of
accounts classified `income`. -/
def incomeTotal (types : AccountTypes) (bal : Balances) : Rat :=
  (bal.map (fun p => if lookupType types p.1 = some AccountType.income then -p.2 else 0)).sum

/-- Total contributed to the `expenses` accumulator: raw balances of
accounts classified `expense`, added as-is. -/
def expensesTotal (types : AccountTypes) (bal : Balances) : Rat :=
  (bal.map (fun p => if lookupType types p.1 = some AccountType.expense then p.2 else 0)).sum

theorem getBal_setBal_self (b : Balances) (k : String) (v : Rat) :
    getBal (setBal b k v) k = v := by
  induction b with
  | nil => simp [setBal, getBal]
  | cons p rest ih =>
      by_cases h : p.1 = k
      · simp [setBal, getBal, h]
      · simp [setBal, getBal, h, ih]

theorem getBal_setBal_ne (b : Balances) (k c : String) (v : Rat) (h : k ≠ c) :
    getBal (setBal b k v) c = getBal b c := by
  induction b with
  | nil => simp [setBal, getBal, h]
  | cons p rest ih =>
      by_cases hp : p.1 = k
      · simp [setBal, getBal, hp, h]
      · simp [setBal, getBal, hp, ih]

theorem hasAccount_setBal (b : Balances) (k c : String) (v : Rat) :
    hasAccount (setBal b k v) c = (hasAccount b c || k == c) := by
  induction b with
  | nil => simp [setBal, hasAccount]
  | cons p rest ih =>
      by_cases hp : p.1 = k
      · simp only [setBal, if_pos hp, hasAccount, hp]
        cases hkc : (k == c) <;> simp [hasAccount, hkc]
      · simp only [setBal, if_neg hp, hasAccount, ih, Bool.or_assoc]

theorem getBal_of_not_hasAccount (b : Balances) (k : String) (h : hasAccount b k = false) :
    getBal b k = 0 := by
  induction b with
  | nil => simp [getBal]
  | cons p rest ih =>
      simp only [hasAccount, Bool.or_eq_false_iff, beq_eq_false_iff_ne] at h
      simp [getBal, h.1, ih h.2]

theorem getBal_initKey (b : Balances) (k c : String) :
    getBal (initKey b k) c = getBal b c := by
  unfold initKey
  by_cases h : hasAccount b k = true
  · rw [if_pos h]
  · rw [if_neg h]
    by_cases hk : k = c
    · subst hk
      rw [getBal_setBal_self, getBal_of_not_hasAccount b k (by simpa using h)]
    · exact getBal_setBal_ne b k c 0 hk

theorem hasAccount_initKey (b : Balances) (k c : String) :
    hasAccount (initKey b k) c = (hasAccount b c || k == c) := by
  unfold initKey
  by_cases h : hasAccount b k = true
  · rw [if_pos h]
    by_cases hk : k = c
    · subst hk; simp [h]
    · simp [hk]
  · rw [if_neg h]
    exact hasAccount_setBal b k c 0

theorem getBal_initKey2 (b : Balances) (k1 k2 x : String) :
    getBal (initKey (initKey b k1) k2) x = getBal b x := by
  rw [getBal_initKey, getBal_initKey]

theorem getBal_processEntry (b : Balances) (e : JournalEntry) (c : String) :
    getBal (processEntry b e) c = getBal b c + entryDelta c e := by
  simp only [processEntry, entryDelta]
  by_cases hc : e.credit_code = c
  · subst hc
    by_cases hd : e.debit_code = e.credit_code
    · rw [getBal_setBal_self, hd, getBal_setBal_self, getBal_initKey2]
      split_ifs with h1
      · ring
      · exact absurd rfl h1
    · rw [getBal_setBal_self, getBal_setBal_ne _ _ _ _ hd, getBal_initKey2]
      split_ifs with h1
      · ring
      · exact absurd rfl h1
  · rw [getBal_setBal_ne _ _ _ _ hc]
    by_cases hd : e.debit_code = c
    · subst hd
      rw [getBal_setBal_self, getBal_initKey2]
      split_ifs with h1
      · ring
      · exact absurd rfl h1
    · rw [getBal_setBal_ne _ _ _ _ hd, getBal_initKey2]
      split_ifs
      ring

theorem hasAccount_processEntry (b : Balances) (e : JournalEntry) (c : String) :
    hasAccount (processEntry b e) c = (hasAccount b c || touches c e) := by
  simp only [processEntry, touches]
  rw [hasAccount_setBal, hasAccount_setBal, hasAccount_initKey, hasAccount_initKey]
  cases h1 : (e.debit_code == c) <;> cases h2 : (e.credit_code == c) <;>
    simp [h1, h2]

theorem sumVals_setBal_of_has (b : Balances) (k : String) (v : Rat)
    (h : hasAccount b k = true) :
    sumVals (setBal b k v) = sumVals b - getBal b k + v := by
  induction b with
  | nil => simp [hasAccount] at h
  | cons p rest ih =>
      by_cases hp : p.1 = k
      · simp only [setBal, if_pos hp, sumVals, List.map_cons, List.sum_cons, getBal]
        ring
      · have h2 : hasAccount rest k = true := by
          simp only [hasAccount, Bool.or_eq_true, beq_iff_eq] at h
          exact h.resolve_left hp
        simp only [setBal, if_neg hp, sumVals, List.map_cons, List.sum_cons, getBal]
        have ih2 := ih h2
        simp only [sumVals] at ih2
        rw [ih2]
        ring

theorem sumVals_setBal_of_not_has (b : Balances) (k : String) (v : Rat)
    (h : hasAccount b k = false) :
    sumVals (setBal b k v) = sumVals b + v := by
  induction b with
  | nil => simp [setBal, sumVals]
  | cons p rest ih =>
      simp only [hasAccount, Bool.or_eq_false_iff, beq_eq_false_iff_ne] at h
      simp only [setBal, if_neg h.1, sumVals, List.map_cons, List.sum_cons]
      have ih2 := ih h.2
      simp only [sumVals] at ih2
      rw [ih2]
      ring

theorem sumVals_initKey (b : Balances) (k : String) :
    sumVals (initKey b k) = sumVals b := by
  unfold initKey
  by_cases h : hasAccount b k = true
  · rw [if_pos h]
  · rw [if_neg h]
    rw [sumVals_setBal_of_not_has b k 0 (by simpa using h)]
    ring

theorem sumVals_processEntry (b : Balances) (e : JournalEntry) :
    sumVals (processEntry b e) = sumVals b := by
  simp only [processEntry]
  have hd : hasAccount (initKey (initKey b e.debit_code) e.credit_code) e.debit_code = true := by
    rw [hasAccount_initKey, hasAccount_initKey]
    simp
  have hc3 : hasAccount
      (setBal (initKey (initKey b e.debit_code) e.credit_code) e.debit_code
        (getBal (initKey (initKey b e.debit_code) e.credit_code) e.debit_code + e.amount))
      e.credit_code = true := by
    rw [hasAccount_setBal, hasAccount_initKey]
    simp
  rw [sumVals_setBal_of_has _ _ _ hc3, sumVals_setBal_of_has _ _ _ hd,
    sumVals_initKey, sumVals_initKey]
  ring

theorem getBal_foldl (entries : List JournalEntry) (b : Balances) (c : String) :
    getBal (entries.foldl processEntry b) c =
      getBal b c + (entries.map (entryDelta c)).sum := by
  induction entries generalizing b with
  | nil => simp
  | cons e rest ih =>
      simp only [List.foldl_cons, List.map_cons, List.sum_cons, ih, getBal_processEntry]
      ring

theorem hasAccount_foldl (entries : List JournalEntry) (b : Balances) (c : String) :
    hasAccount (entries.foldl processEntry b) c =
      (hasAccount b c || entries.any (touches c)) := by
  induction entries generalizing b with
  | nil => simp
  | cons e rest ih =>
      simp only [List.foldl_cons, List.any_cons, ih, hasAccount_processEntry, Bool.or_assoc]

theorem sumVals_foldl (entries : List JournalEntry) (b : Balances) :
    sumVals (entries.foldl processEntry b) = sumVals b := by
  induction entries generalizing b with
  | nil => rfl
  | cons e rest ih =>
      simp only [List.foldl_cons, ih, sumVals_processEntry]

theorem entryDelta_sum_split (entries : List JournalEntry) (c : String) :
    (entries.map (entryDelta c)).sum = debitSum c entries - creditSum c entries := by
  induction entries with
  | nil => simp [debitSum, creditSum]
  | cons e rest ih =>
      simp only [List.map_cons, List.sum_cons, ih, entryDelta, debitSum, creditSum]
      ring

theorem equationStep_assets (types : AccountTypes) (t : Totals) (p : String × Rat) :
    (equationStep types t p).assets =
      t.assets + (if lookupType types p.1 = some AccountType.asset then p.2 else 0) := by
  unfold equationStep
  cases h : lookupType types p.1 with
  | none => simp [h]
  | some ty => cases ty <;> simp [h]

theorem equationStep_liabilities (types : AccountTypes) (t : Totals) (p : String × Rat) :
    (equationStep types t p).liabilities =
      t.liabilities + (if lookupType types p.1 = some AccountType.liability then -p.2 else 0) := by
  unfold equationStep
  cases h : lookupType types p.1 with
  | none => simp [h]
  | some ty => cases ty <;> simp [h]

theorem equationStep_equity (types : AccountTypes) (t : Totals) (p : String × Rat) :
    (equationStep types t p).equity =
      t.equity + (if lookupType types p.1 = some AccountType.equity then -p.2 else 0) := by
  unfold equationStep
  cases h : lookupType types p.1 with
  | none => simp [h]
  | some ty => cases ty <;> simp [h]

theorem equationStep_income (types : AccountTypes) (t : Totals) (p : String × Rat) :
    (equationStep types t p).income =
      t.income + (if lookupType types p.1 = some AccountType.income then -p.2 else 0) := by
  unfold equationStep
  cases h : lookupType types p.1 with
  | none => simp [h]
  | some ty => cases ty <;> simp [h]

theorem equationStep_expenses (types : AccountTypes) (t : Totals) (p : String × Rat) :
    (equationStep types t p).expenses =
      t.expenses + (if lookupType types p.1 = some AccountType.expense then p.2 else 0) := by
  unfold equationStep
  cases h : lookupType types p.1 with
  | none => simp [h]
  | some ty => cases ty <;> simp [h]

theorem foldl_equationStep_assets (types : AccountTypes) (bal : Balances) (t : Totals) :
    (bal.foldl (equationStep types) t).assets = t.assets + assetsTotal types bal := by
  induction bal generalizing t with
  | nil => simp [assetsTotal]
  | cons p rest ih =>
      simp only [List.foldl_cons, ih, equationStep_assets, assetsTotal, List.map_cons,
        List.sum_cons]
      ring

theorem foldl_equationStep_liabilities (types : AccountTypes) (bal : Balances) (t : Totals) :
    (bal.foldl (equationStep types) t).liabilities =
      t.liabilities + liabilitiesTotal types bal := by
  induction bal generalizing t with
  | nil => simp [liabilitiesTotal]
  | cons p rest ih =>
      simp only [List.foldl_cons, ih, equationStep_liabilities, liabilitiesTotal, List.map_cons,
        List.sum_cons]
      ring

theorem foldl_equationStep_equity (types : AccountTypes) (bal : Balances) (t : Totals) :
    (bal.foldl (equationStep types) t).equity = t.equity + equityTotal types bal := by
  induction bal generalizing t with
  | nil => simp [equityTotal]
  | cons p rest ih =>
      simp only [List.foldl_cons, ih, equationStep_equity, equityTotal, List.map_cons,
        List.sum_cons]
      ring

theorem foldl_equationStep_income (types : AccountTypes) (bal : Balances) (t : Totals) :
    (bal.foldl (equationStep types) t).income = t.income + incomeTotal types bal := by
  induction bal generalizing t with
  | nil => simp [incomeTotal]
  | cons p rest ih =>
      simp only [List.foldl_cons, ih, equationStep_income, incomeTotal, List.map_cons,
        List.sum_cons]
      ring

theorem foldl_equationStep_expenses (types : AccountTypes) (bal : Balances) (t : Totals) :
    (bal.foldl (equationStep types) t).expenses = t.expenses + expensesTotal types bal := by
  induction bal generalizing t with
  | nil => simp [expensesTotal]
  | cons p rest ih =>
      simp only [List.foldl_cons, ih, equationStep_expenses, expensesTotal, List.map_cons,
        List.sum_cons]
      ring

theorem equationStep_unclassified (types : AccountTypes) (t : Totals) (p : String × Rat)
    (h : lookupType types p.1 = none) : equationStep types t p = t := by
  unfold equationStep
  rw [h]

theorem foldl_equationStep_filter (types : AccountTypes) (bal : Balances) (t : Totals) :
    ((bal.filter (fun p => (lookupType types p.1).isSome)).foldl (equationStep types) t) =
      bal.foldl (equationStep types) t := by
  induction bal generalizing t with
  | nil => rfl
  | cons p rest ih =>
      by_cases h : (lookupType types p.1).isSome = true
      · rw [List.filter_cons_of_pos (by simpa using h), List.foldl_cons, List.foldl_cons, ih]
      · have hn : lookupType types p.1 = none := by
          cases hl : lookupType types p.1 with
          | none => rfl
          | some ty => exact absurd (by simp [hl]) h
        rw [List.filter_cons_of_neg (by simpa using h), List.foldl_cons,
          equationStep_unclassified types t p hn, ih]

theorem getAccountBalances_single (A B : String) (a : Rat) (h : A ≠ B) :
    getAccountBalances [⟨A, B, a⟩] = [(A, a), (B, -a)] := by
  simp [getAccountBalances, processEntry, initKey, hasAccount, setBal, getBal, h, Ne.symm h]

theorem getAccountBalances_single_self (code : String) (a : Rat) :
    getAccountBalances [⟨code, code, a⟩] = [(code, 0)] := by
  simp [getAccountBalances, processEntry, initKey, hasAccount, setBal, getBal]

/-- The three entries of the repository's multi-entry netting test: cash
from capital 1000, inventory from cash 500, cash from sales 800. -/
def entryA : JournalEntry := ⟨"1100", "3000", 1000⟩

/-- Second entry of the multi-entry netting test. -/
def entryB : JournalEntry := ⟨"1500", "1100", 500⟩

/-- Third entry of the multi-entry netting test. -/
def entryC : JournalEntry := ⟨"1100", "4000", 800⟩

/-- Three entries of amount 0.1 debiting account A against account B. -/
def tenthEntries : List JournalEntry :=
  [⟨"A", "B", 1/10⟩, ⟨"A", "B", 1/10⟩, ⟨"A", "B", 1/10⟩]

/-- C1: `verifyAccountingEquation` returns true exactly when the assets
total equals liabilities + equity + (income − expenses), where the five
totals are accumulated from the raw per-account balances of
`getAccountBalances`: as-is for accounts classified asset or expense,
negated for accounts classified liability, equity or income; the final
comparison is exact equality with no tolerance. -/
theorem C1_verify_equation_iff (entries : List JournalEntry) (types : AccountTypes) :
    verifyAccountingEquation entries types = true ↔
      assetsTotal types (getAccountBalances entries) =
        liabilitiesTotal types (getAccountBalances entries) +
          equityTotal types (getAccountBalances entries) +
          (incomeTotal types (getAccountBalances entries) -
            expensesTotal types (getAccountBalances entries)) := by
  simp only [verifyAccountingEquation, equationCheck, decide_eq_true_eq]
  rw [foldl_equationStep_assets, foldl_equationStep_liabilities, foldl_equationStep_equity,
    foldl_equationStep_income, foldl_equationStep_expenses]
  simp

/-- C2: in the mapping returned by `getAccountBalances`, every account
code's balance is the sum of amounts debiting it minus the sum of amounts
crediting it; a code is a key of the mapping exactly when some entry
references it on either side; in particular a single entry
debit A / credit B of 1000 yields the mapping A ↦ 1000, B ↦ -1000. -/
theorem C2_account_balances_spec (entries : List JournalEntry) (c : String) :
    getBal (getAccountBalances entries) c = debitSum c entries - creditSum c entries ∧
      (hasAccount (getAccountBalances entries) c = true ↔
        ∃ e ∈ entries, e.debit_code = c ∨ e.credit_code = c) ∧
      getAccountBalances [⟨"A", "B", 1000⟩] = [("A", 1000), ("B", -1000)] := by
  refine ⟨?_, ?_, ?_⟩
  · rw [getAccountBalances, getBal_foldl, entryDelta_sum_split]
    simp [getBal]
  · rw [getAccountBalances, hasAccount_foldl]
    simp [hasAccount, touches]
  · rw [getAccountBalances_single "A" "B" 1000 (by decide)]

/-- C3: `isJournalBalanced` returns true on every entry list, because both
running totals sum the same amounts; equivalently it returns true exactly
when the total debit equals the total credit. -/
theorem C3_always_balanced (entries : List JournalEntry) :
    isJournalBalanced entries = true ∧
      (isJournalBalanced entries = true ↔ totalDebit entries = totalCredit entries) := by
  have h : totalDebit entries = totalCredit entries := rfl
  exact ⟨by simp [isJournalBalanced, h], by simp [isJournalBalanced, h]⟩

/-- C4: permuting the entry list leaves the balance mapping of
`getAccountBalances` unchanged as a mapping: the same account codes are
present and each is mapped to an equal balance. -/
theorem C4_order_independence (es1 es2 : List JournalEntry) (h : es1.Perm es2) (c : String) :
    hasAccount (getAccountBalances es1) c = hasAccount (getAccountBalances es2) c ∧
      getBal (getAccountBalances es1) c = getBal (getAccountBalances es2) c := by
  constructor
  · rw [getAccountBalances, getAccountBalances, hasAccount_foldl, hasAccount_foldl]
    have hiff : es1.any (touches c) = true ↔ es2.any (touches c) = true := by
      simp only [List.any_eq_true]
      constructor
      · rintro ⟨x, hx, hpx⟩; exact ⟨x, h.mem_iff.mp hx, hpx⟩
      · rintro ⟨x, hx, hpx⟩; exact ⟨x, h.mem_iff.mpr hx, hpx⟩
    rw [Bool.eq_iff_iff.mpr hiff]
  · rw [getAccountBalances, getAccountBalances, getBal_foldl, getBal_foldl,
      List.Perm.sum_eq (List.Perm.map (entryDelta c) h)]

/-- Witness for C4: the repository's multi-entry test list and a
transposition of it have the same keys and the same balance at account
1100. -/
theorem C4_order_independence_witness :
    ([entryA, entryB, entryC].Perm [entryB, entryA, entryC]) ∧
      (hasAccount (getAccountBalances [entryA, entryB, entryC]) "1100" =
          hasAccount (getAccountBalances [entryB, entryA, entryC]) "1100" ∧
        getBal (getAccountBalances [entryA, entryB, entryC]) "1100" =
          getBal (getAccountBalances [entryB, entryA, entryC]) "1100") :=
  ⟨List.Perm.swap entryB entryA [entryC],
    C4_order_independence _ _ (List.Perm.swap entryB entryA [entryC]) "1100"⟩

/-- C5: accounts absent from the classification contribute to none of the
five running totals: the verification result is the result computed over
only the classified accounts' balances. -/
theorem C5_unclassified_excluded (entries : List JournalEntry) (types : AccountTypes) :
    verifyAccountingEquation entries types =
      equationCheck ((getAccountBalances entries).filter
        (fun p => (lookupType types p.1).isSome)) types := by
  unfold verifyAccountingEquation equationCheck
  rw [foldl_equationStep_filter]

/-- C6 counterexample: the code performs no amount validation whatsoever —
on an entry of amount −5 both operations return ordinary results (no
failure is raised and nothing is clamped): `isJournalBalanced` answers
true and `getAccountBalances` nets the negative amount arithmetically,
refuting the claim that an `InvalidAmount` validation failure is raised
and propagated to the caller. -/
theorem C6_negative_amount_counterexample :
    isJournalBalanced [⟨"A", "B", -5⟩] = true ∧
      getAccountBalances [⟨"A", "B", -5⟩] = [("A", -5), ("B", 5)] := by
  constructor
  · simp [isJournalBalanced, totalDebit, totalCredit]
  · rw [getAccountBalances_single "A" "B" (-5) (by decide)]
    norm_num

/-- C6 amended: an entry with a negative amount is silently accepted: for
any distinct account codes and any amount, including negative ones, the
entry is processed arithmetically — `isJournalBalanced` returns true and
`getAccountBalances` maps the debit account to the amount and the credit
account to its negation; no validation failure exists in the code. -/
theorem C6_negative_amount_accepted (A B : String) (a : Rat) (h : A ≠ B) :
    isJournalBalanced [⟨A, B, a⟩] = true ∧
      getAccountBalances [⟨A, B, a⟩] = [(A, a), (B, -a)] :=
  ⟨by simp [isJournalBalanced, totalDebit, totalCredit], getAccountBalances_single A B a h⟩

/-- Witness for the amended C6 at the spec's failing input, amount −5. -/
theorem C6_negative_amount_accepted_witness :
    ("A" : String) ≠ "B" ∧
      (isJournalBalanced [⟨"A", "B", -5⟩] = true ∧
        getAccountBalances [⟨"A", "B", -5⟩] = [("A", -5), ("B", -(-5))]) :=
  ⟨by decide, C6_negative_amount_accepted "A" "B" (-5) (by decide)⟩

/-- C7: on the empty entry list, `isJournalBalanced` returns true and
`getAccountBalances` returns the empty mapping. -/
theorem C7_empty_input :
    isJournalBalanced [] = true ∧ getAccountBalances [] = [] :=
  ⟨rfl, rfl⟩

/-- C8: aggregation is exact decimal: three entries of amount 0.1 sum to
exactly 3/10 in both totals of `isJournalBalanced`, the check answers
true, the debited account's balance is exactly 3/10, and the result is
not the binary floating-point value 0.30000000000000004. -/
theorem C8_exact_decimal :
    totalDebit tenthEntries = 3/10 ∧
      totalCredit tenthEntries = 3/10 ∧
      isJournalBalanced tenthEntries = true ∧
      getBal (getAccountBalances tenthEntries) "A" = 3/10 ∧
      totalDebit tenthEntries ≠ 30000000000000004 / 100000000000000000 := by
  have h1 : totalDebit tenthEntries = 3/10 := by
    simp [totalDebit, tenthEntries]
    norm_num
  have h2 : totalCredit tenthEntries = 3/10 := h1
  refine ⟨h1, h2, by simp [isJournalBalanced, totalDebit, totalCredit], ?_, ?_⟩
  · rw [getAccountBalances, getBal_foldl]
    simp [tenthEntries, entryDelta, getBal]
    norm_num
  · rw [h1]
    norm_num

/-- C9: zero-sum invariant: with no precondition on the amounts, the sum
of all balances returned by `getAccountBalances` is exactly zero. -/
theorem C9_zero_sum (entries : List JournalEntry) :
    sumVals (getAccountBalances entries) = 0 := by
  rw [getAccountBalances, sumVals_foldl]
  rfl

/-- C10: an entry whose debit and credit codes coincide is accepted
without error: appended to any list it leaves `isJournalBalanced` true,
makes its account code a key of the mapping, changes no account's
balance, and alone it produces the mapping sending its code to 0. -/
theorem C10_self_referencing (code : String) (a : Rat) (es : List JournalEntry) :
    isJournalBalanced (es ++ [⟨code, code, a⟩]) = true ∧
      hasAccount (getAccountBalances (es ++ [⟨code, code, a⟩])) code = true ∧
      (∀ c, getBal (getAccountBalances (es ++ [⟨code, code, a⟩])) c =
        getBal (getAccountBalances es) c) ∧
      getAccountBalances [⟨code, code, a⟩] = [(code, 0)] := by
  refine ⟨by simp [isJournalBalanced, totalDebit, totalCredit], ?_, ?_, getAccountBalances_single_self code a⟩
  · rw [getAccountBalances, hasAccount_foldl]
    simp [touches]
  · intro c
    rw [getAccountBalances, getAccountBalances, getBal_foldl, getBal_foldl]
    simp [entryDelta]

end JournalBalance
